import Mathlib

/-!
Verification of the react-exe dynamic module execution pipeline.

This file gives a shallow embedding of the parts of the source relevant to the
frozen claims: the CDN package resolver and its per-realm promise caches
(src/src/utils/cdn-resolver.ts), the generated factory's entry resolution
(transformMultipleFiles, same file), the import-transformer plugin's dependency
classification (createImportTransformerPlugin), the two-pass structure of
transformMultipleFiles, and the executeCode entry point of the CodeExecutor
component (src/unnamed/part_001).

Conventions of the embedding:
* JavaScript Map objects are modelled as total functions into Option.
* Promise objects are identified by the Nat counter value at their creation;
  starting a fetch sequence appends an entry to an explicit fetch log.
* Thrown JavaScript exceptions are modelled as the Except monad, carrying the
  message of the thrown Error.
* A realm (the targetWindow argument) is modelled as Option Nat: none stands
  for the host window (a null/undefined targetWindow or window itself), and
  some w for a sandbox window with identity w.
-/

namespace ReactExe

/-! ## CDN resolver state (src/src/utils/cdn-resolver.ts, lines 13-16, 44-136)

GLOBAL_CDN_CACHE is a Map from package name to a module promise;
SANDBOX_CDN_CACHE maps each sandbox window to its own such Map. -/

/-- State of the CDN resolver module: the two cache scopes of lines 15-16,
a counter supplying identities for newly created promises, and a log of the
fetch sequences that have been initiated (one entry per promise creation,
line 54: creating the promise starts its network fetch sequence). -/
structure CDNState where
  globalCache : String → Option Nat
  sandboxCache : Nat → String → Option Nat
  nextId : Nat
  fetchLog : List (Option Nat × String)

/-- The state at module load: both caches empty. -/
def initState : CDNState :=
  { globalCache := fun _ => none
    sandboxCache := fun _ _ => none
    nextId := 0
    fetchLog := [] }

/-- Lookup in the cache selected by getCache (lines 126-136): the host realm
uses GLOBAL_CDN_CACHE, a sandbox window its own map in SANDBOX_CDN_CACHE. -/
def cacheLookup (realm : Option Nat) (pkg : String) (st : CDNState) : Option Nat :=
  match realm with
  | none => st.globalCache pkg
  | some w => st.sandboxCache w pkg

/-- Insertion into the cache selected by getCache (line 101: cache.set). -/
def cacheInsert (realm : Option Nat) (pkg : String) (i : Nat) (st : CDNState) : CDNState :=
  match realm with
  | none =>
    { st with globalCache := fun q => if q = pkg then some i else st.globalCache q }
  | some w =>
    { st with sandboxCache := fun v q =>
        if v = w ∧ q = pkg then some i else st.sandboxCache v q }

/-- resolvePackageFromCDN (lines 44-104): on a cache hit return the cached
promise unchanged; on a miss create a new promise (which immediately starts
its fetch sequence), cache it, and return it. -/
def resolvePackageFromCDN (realm : Option Nat) (pkg : String) (st : CDNState) :
    Nat × CDNState :=
  match cacheLookup realm pkg st with
  | some i => (i, st)
  | none =>
    (st.nextId,
      { cacheInsert realm pkg st.nextId st with
          nextId := st.nextId + 1
          fetchLog := st.fetchLog ++ [(realm, pkg)] })

/-- Number of fetch sequences initiated for a given realm and package. -/
def fetchCount (realm : Option Nat) (pkg : String) (st : CDNState) : Nat :=
  (st.fetchLog.filter (fun e => e = (realm, pkg))).length

/-- Run a list of resolvePackageFromCDN calls in order. -/
def runResolves (ops : List (Option Nat × String)) (st : CDNState) : CDNState :=
  ops.foldl (fun s op => (resolvePackageFromCDN op.1 op.2 s).2) st

/-- States reachable from the initial state by resolvePackageFromCDN calls
(preloadPackage, line 119, is just such a call). -/
inductive Reachable : CDNState → Prop where
  | init : Reachable initState
  | step (realm : Option Nat) (pkg : String) {st : CDNState} :
      Reachable st → Reachable (resolvePackageFromCDN realm pkg st).2

/-- Invariant of the resolver state: cached promise identities are below the
counter, no promise identity is cached under two different keys, and a fetch
sequence has been initiated exactly for the cached (realm, package) pairs,
once each. -/
def CDNInv (st : CDNState) : Prop :=
  (∀ r p i, cacheLookup r p st = some i → i < st.nextId) ∧
  (∀ r₁ p₁ r₂ p₂ i, cacheLookup r₁ p₁ st = some i → cacheLookup r₂ p₂ st = some i →
    r₁ = r₂ ∧ p₁ = p₂) ∧
  (∀ r p, fetchCount r p st = if (cacheLookup r p st).isSome then 1 else 0)

theorem cacheLookup_insert (r r' : Option Nat) (p p' : String) (i : Nat) (st : CDNState) :
    cacheLookup r' p' (cacheInsert r p i st) =
      if r' = r ∧ p' = p then some i else cacheLookup r' p' st := by
  cases r with
  | none =>
    cases r' with
    | none =>
      by_cases h : p' = p <;> simp [cacheLookup, cacheInsert, h]
    | some w' => simp [cacheLookup, cacheInsert]
  | some w =>
    cases r' with
    | none => simp [cacheLookup, cacheInsert]
    | some w' =>
      by_cases hw : w' = w
      · by_cases hp : p' = p <;> simp [cacheLookup, cacheInsert, hw, hp]
      · simp [cacheLookup, cacheInsert, hw]

theorem resolve_hit {r : Option Nat} {p : String} {st : CDNState} {i : Nat}
    (h : cacheLookup r p st = some i) :
    resolvePackageFromCDN r p st = (i, st) := by
  simp [resolvePackageFromCDN, h]

theorem resolve_miss {r : Option Nat} {p : String} {st : CDNState}
    (h : cacheLookup r p st = none) :
    resolvePackageFromCDN r p st =
      (st.nextId,
        { cacheInsert r p st.nextId st with
            nextId := st.nextId + 1
            fetchLog := st.fetchLog ++ [(r, p)] }) := by
  simp [resolvePackageFromCDN, h]

theorem cacheLookup_mk_updates (r : Option Nat) (p : String) (st : CDNState)
    (n : Nat) (log : List (Option Nat × String)) :
    cacheLookup r p { st with nextId := n, fetchLog := log } = cacheLookup r p st := by
  cases r <;> rfl

theorem cacheLookup_resolve (r r' : Option Nat) (p p' : String) (st : CDNState) :
    cacheLookup r' p' (resolvePackageFromCDN r p st).2 =
      if cacheLookup r p st = none ∧ r' = r ∧ p' = p then some st.nextId
      else cacheLookup r' p' st := by
  cases h : cacheLookup r p st with
  | some i => simp [resolve_hit h, h]
  | none =>
    rw [resolve_miss h]
    simp only [h]
    rw [cacheLookup_mk_updates, cacheLookup_insert]
    simp

theorem cacheLookup_resolve_self (r : Option Nat) (p : String) (st : CDNState) :
    cacheLookup r p (resolvePackageFromCDN r p st).2 =
      some (resolvePackageFromCDN r p st).1 := by
  cases h : cacheLookup r p st with
  | some i => simp [resolve_hit h, h]
  | none =>
    rw [cacheLookup_resolve, if_pos ⟨h, rfl, rfl⟩, resolve_miss h]

theorem cacheLookup_resolve_preserved {r : Option Nat} {p : String} {st : CDNState}
    {i : Nat} (h : cacheLookup r p st = some i) (r' : Option Nat) (p' : String) :
    cacheLookup r p (resolvePackageFromCDN r' p' st).2 = some i := by
  rw [cacheLookup_resolve]
  by_cases hsame : cacheLookup r' p' st = none ∧ r = r' ∧ p = p'
  · rcases hsame with ⟨hn, rfl, rfl⟩
    rw [h] at hn
    exact absurd hn (by simp)
  · rw [if_neg, h]
    intro ⟨hn, hr, hp⟩
    exact hsame ⟨hn, hr.symm ▸ rfl, hp.symm ▸ rfl⟩

theorem cacheLookup_runResolves_preserved {r : Option Nat} {p : String} {i : Nat} :
    ∀ (ops : List (Option Nat × String)) {st : CDNState},
      cacheLookup r p st = some i → cacheLookup r p (runResolves ops st) = some i := by
  intro ops
  induction ops with
  | nil => intro st h; exact h
  | cons op rest ih =>
    intro st h
    exact ih (cacheLookup_resolve_preserved h op.1 op.2)

theorem fetchCount_resolve (r r' : Option Nat) (p p' : String) (st : CDNState) :
    fetchCount r' p' (resolvePackageFromCDN r p st).2 =
      if cacheLookup r p st = none ∧ r' = r ∧ p' = p
      then fetchCount r' p' st + 1 else fetchCount r' p' st := by
  cases h : cacheLookup r p st with
  | some i => simp [resolve_hit h, h]
  | none =>
    rw [resolve_miss h]
    simp only [h, true_and]
    by_cases hk : r' = r ∧ p' = p
    · rcases hk with ⟨rfl, rfl⟩
      rw [if_pos ⟨rfl, rfl⟩]
      simp [fetchCount, List.filter_append]
    · rw [if_neg hk]
      have hne : ¬((r, p) = (r', p')) := by
        simp only [Prod.mk.injEq, not_and]
        intro h₁ h₂
        exact absurd ⟨h₁.symm, h₂.symm⟩ hk
      simp [fetchCount, List.filter_append, hne]

theorem cdnInv_init : CDNInv initState := by
  refine ⟨?_, ?_, ?_⟩
  · intro r p i h
    cases r <;> simp [cacheLookup, initState] at h
  · intro r₁ p₁ r₂ p₂ i h₁ h₂
    cases r₁ <;> simp [cacheLookup, initState] at h₁
  · intro r p
    cases r <;> simp [cacheLookup, fetchCount, initState]

theorem cdnInv_step (r : Option Nat) (p : String) {st : CDNState} (h : CDNInv st) :
    CDNInv (resolvePackageFromCDN r p st).2 := by
  obtain ⟨h1, h2, h3⟩ := h
  cases hl : cacheLookup r p st with
  | some i =>
    rw [resolve_hit hl]
    exact ⟨h1, h2, h3⟩
  | none =>
    refine ⟨?_, ?_, ?_⟩
    · intro r' p' i hi
      rw [cacheLookup_resolve] at hi
      have hn : (resolvePackageFromCDN r p st).2.nextId = st.nextId + 1 := by
        rw [resolve_miss hl]
      rw [hn]
      by_cases hc : cacheLookup r p st = none ∧ r' = r ∧ p' = p
      · rw [if_pos hc] at hi
        have heq : st.nextId = i := by simpa using hi
        omega
      · rw [if_neg hc] at hi
        exact Nat.lt_succ_of_lt (h1 r' p' i hi)
    · intro r₁ p₁ r₂ p₂ i hi₁ hi₂
      rw [cacheLookup_resolve] at hi₁ hi₂
      by_cases hc₁ : cacheLookup r p st = none ∧ r₁ = r ∧ p₁ = p <;>
        by_cases hc₂ : cacheLookup r p st = none ∧ r₂ = r ∧ p₂ = p
      · exact ⟨hc₁.2.1.trans hc₂.2.1.symm, hc₁.2.2.trans hc₂.2.2.symm⟩
      · rw [if_pos hc₁] at hi₁
        rw [if_neg hc₂] at hi₂
        have hlt := h1 r₂ p₂ i hi₂
        have heq : st.nextId = i := by simpa using hi₁
        exact absurd heq (by omega)
      · rw [if_neg hc₁] at hi₁
        rw [if_pos hc₂] at hi₂
        have hlt := h1 r₁ p₁ i hi₁
        have heq : st.nextId = i := by simpa using hi₂
        exact absurd heq (by omega)
      · rw [if_neg hc₁] at hi₁
        rw [if_neg hc₂] at hi₂
        exact h2 r₁ p₁ r₂ p₂ i hi₁ hi₂
    · intro r' p'
      rw [fetchCount_resolve, cacheLookup_resolve]
      by_cases hc : cacheLookup r p st = none ∧ r' = r ∧ p' = p
      · rw [if_pos hc, if_pos hc]
        rcases hc with ⟨hn, rfl, rfl⟩
        rw [h3 r' p', hn]
        simp
      · rw [if_neg hc, if_neg hc]
        exact h3 r' p'

theorem reachable_inv {st : CDNState} (h : Reachable st) : CDNInv st := by
  induction h with
  | init => exact cdnInv_init
  | step r p _ ih => exact cdnInv_step r p ih

theorem reachable_runResolves {st : CDNState} (h : Reachable st) :
    ∀ ops : List (Option Nat × String), Reachable (runResolves ops st) := by
  intro ops
  induction ops generalizing st with
  | nil => exact h
  | cons op rest ih => exact ih (Reachable.step op.1 op.2 h)

/-- C3: for every package identifier and realm, two calls to
resolvePackageFromCDN with the same identifier and realm return the same
promise (the second call — at whatever later point of the call sequence —
returns the promise created or found by the first and leaves the state
unchanged), a cache hit performs no state change at all, and at most one
network fetch sequence is ever initiated per (realm, identifier) pair. -/
theorem resolvePackageFromCDN_coalesces (st : CDNState) (r : Option Nat) (p : String)
    (h : Reachable st) :
    (∀ ops : List (Option Nat × String),
      resolvePackageFromCDN r p (runResolves ops (resolvePackageFromCDN r p st).2) =
        ((resolvePackageFromCDN r p st).1,
          runResolves ops (resolvePackageFromCDN r p st).2)) ∧
    (∀ i, cacheLookup r p st = some i → resolvePackageFromCDN r p st = (i, st)) ∧
    (∀ ops r' p', fetchCount r' p' (runResolves ops st) ≤ 1) := by
  refine ⟨?_, ?_, ?_⟩
  · intro ops
    exact resolve_hit
      (cacheLookup_runResolves_preserved ops (cacheLookup_resolve_self r p st))
  · intro i hi
    exact resolve_hit hi
  · intro ops r' p'
    have hinv := reachable_inv (reachable_runResolves h ops)
    rw [hinv.2.2 r' p']
    by_cases hs : (cacheLookup r' p' (runResolves ops st)).isSome <;> simp [hs]

/-- Witness for C3 at a concrete state: one resolve of the package lodash in
the host realm from the initial state. -/
theorem resolvePackageFromCDN_coalesces_witness :
    Reachable (resolvePackageFromCDN none "lodash" initState).2 ∧
    ((∀ ops : List (Option Nat × String),
      resolvePackageFromCDN none "lodash"
          (runResolves ops
            (resolvePackageFromCDN none "lodash"
              (resolvePackageFromCDN none "lodash" initState).2).2) =
        ((resolvePackageFromCDN none "lodash"
            (resolvePackageFromCDN none "lodash" initState).2).1,
          runResolves ops
            (resolvePackageFromCDN none "lodash"
              (resolvePackageFromCDN none "lodash" initState).2).2)) ∧
    (∀ i, cacheLookup none "lodash" (resolvePackageFromCDN none "lodash" initState).2 =
        some i →
      resolvePackageFromCDN none "lodash"
          (resolvePackageFromCDN none "lodash" initState).2 =
        (i, (resolvePackageFromCDN none "lodash" initState).2)) ∧
    (∀ ops r' p',
      fetchCount r' p'
          (runResolves ops (resolvePackageFromCDN none "lodash" initState).2) ≤ 1)) :=
  ⟨Reachable.step none "lodash" Reachable.init,
    resolvePackageFromCDN_coalesces (resolvePackageFromCDN none "lodash" initState).2
      none "lodash" (Reachable.step none "lodash" Reachable.init)⟩

/-- C4: realm isolation of the resolution caches — a module promise cached
for one realm is never returned for a resolvePackageFromCDN request made
against a different realm (and is not cached there either). -/
theorem resolvePackageFromCDN_realm_isolation (st : CDNState) (h : Reachable st) :
    ∀ (r₁ r₂ : Option Nat) (p₁ p₂ : String) (i : Nat), r₁ ≠ r₂ →
      cacheLookup r₁ p₁ st = some i →
      (resolvePackageFromCDN r₂ p₂ st).1 ≠ i ∧ cacheLookup r₂ p₂ st ≠ some i := by
  intro r₁ r₂ p₁ p₂ i hne hc
  obtain ⟨h1, h2, _⟩ := reachable_inv h
  have hother : cacheLookup r₂ p₂ st ≠ some i := by
    intro hc₂
    exact hne (h2 r₁ p₁ r₂ p₂ i hc hc₂).1
  refine ⟨?_, hother⟩
  cases hl : cacheLookup r₂ p₂ st with
  | some j =>
    rw [resolve_hit hl]
    intro hji
    exact hother (hji ▸ hl)
  | none =>
    rw [resolve_miss hl]
    have := h1 r₁ p₁ i hc
    intro hcontra
    simp only at hcontra
    omega

/-- Witness for C4: lodash resolved in the host realm is not returned for a
request from the sandbox realm with identity 0. -/
theorem resolvePackageFromCDN_realm_isolation_witness :
    Reachable (resolvePackageFromCDN none "lodash" initState).2 ∧
    (none : Option Nat) ≠ some 0 ∧
    cacheLookup none "lodash" (resolvePackageFromCDN none "lodash" initState).2 =
      some 0 ∧
    ((resolvePackageFromCDN (some 0) "lodash"
        (resolvePackageFromCDN none "lodash" initState).2).1 ≠ 0 ∧
      cacheLookup (some 0) "lodash"
          (resolvePackageFromCDN none "lodash" initState).2 ≠ some 0) :=
  ⟨Reachable.step none "lodash" Reachable.init, by decide, by decide,
    resolvePackageFromCDN_realm_isolation (resolvePackageFromCDN none "lodash" initState).2
      (Reachable.step none "lodash" Reachable.init)
      none (some 0) "lodash" "lodash" 0 (by decide) (by decide)⟩

/-! ## JavaScript values and the generated factory's entry resolution
(src/src/utils/cdn-resolver.ts, transformMultipleFiles, lines 470-520)

The generated factory body is fixed text; its entry-resolution fragment is

  try {
    const entryModule = getModule(entryModuleName);
    const Component = entryModule.default || entryModule;
    if (typeof Component !== "function") { throw ...; }
    return Component;
  } catch (err) { return function ErrorComponent() {...}; }

We embed the JavaScript values this fragment inspects. Function values are
opaque (identified by a tag); object values carry their property list. -/

/-- A JavaScript runtime value, at the granularity the factory fragment
observes it. -/
inductive JSValue where
  | vundefined
  | vnull
  | vbool (b : Bool)
  | vnum (n : Int)
  | vstr (s : String)
  | vfunc (tag : Nat)
  | vobj (fields : List (String × JSValue))

/-- Property access, as used by entryModule.default: objects look up the
property (missing properties are undefined); every other value yields
undefined at this granularity. -/
def getField (v : JSValue) (key : String) : JSValue :=
  match v with
  | .vobj fields => (fields.lookup key).getD .vundefined
  | _ => .vundefined

/-- JavaScript truthiness, as used by the || in entryModule.default ||
entryModule. -/
def truthy : JSValue → Bool
  | .vundefined => false
  | .vnull => false
  | .vbool b => b
  | .vnum n => n != 0
  | .vstr s => s != ""
  | .vfunc _ => true
  | .vobj _ => true

/-- The typeof Component !== "function" test. -/
def isFunction : JSValue → Bool
  | .vfunc _ => true
  | _ => false

/-- JavaScript typeof, used in the error message of line 492. -/
def typeofJS : JSValue → String
  | .vundefined => "undefined"
  | .vnull => "object"
  | .vbool _ => "boolean"
  | .vnum _ => "number"
  | .vstr _ => "string"
  | .vfunc _ => "function"
  | .vobj _ => "object"

/-- What the factory returns: either the resolved component value, or the
synthetic error-displaying ErrorComponent of lines 499-517 (carrying the
message of the error it displays). -/
inductive FactoryResult where
  | component (v : JSValue)
  | errorComponent (message : String)

/-- Line 488: const Component = entryModule.default || entryModule. -/
def entryComponentValue (m : JSValue) : JSValue :=
  if truthy (getField m "default") then getField m "default" else m

/-- Message of the throw at line 492 (the JSON.stringify part of the
interpolation is not modelled; no claim depends on the message text). -/
def componentTypeError (c : JSValue) : String :=
  "Expected a React component but got " ++ typeofJS c ++
    ". Check that your component is properly exported."

/-- Entry resolution of the generated factory, lines 485-518: getModule on
the entry name either throws (modelled as Except.error, covering a missing
module, a module whose instantiation threw, and an invalid exports object) or
yields the entry instance; the non-function check throws inside the same try;
the catch converts any of these into the synthetic ErrorComponent. -/
def factoryEntryResolve : Except String JSValue → FactoryResult
  | .error e => .errorComponent e
  | .ok m =>
    if isFunction (entryComponentValue m) then .component (entryComponentValue m)
    else .errorComponent (componentTypeError (entryComponentValue m))

/-- A source file as CodeFile of src/unnamed/part_001 lines 22-26
(isEntry defaults to false when absent). -/
structure CodeFile where
  name : String
  content : String
  isEntry : Bool
deriving DecidableEq

/-- normalizeFilename (cdn-resolver.ts lines 523-526): strip one trailing
source extension, then a leading ./ prefix. The regex alternation
(js|jsx|ts|tsx) anchored at the end strips exactly the longest matching
suffix; suffix/prefix tests and character dropping are written on the
character list of the string. -/
def normalizeFilename (filename : String) : String :=
  let cs := filename.data
  let stripped :=
    if ".tsx".data <:+ cs then cs.take (cs.length - 4)
    else if ".jsx".data <:+ cs then cs.take (cs.length - 4)
    else if ".ts".data <:+ cs then cs.take (cs.length - 3)
    else if ".js".data <:+ cs then cs.take (cs.length - 3)
    else cs
  String.mk (if "./".data <+: stripped then stripped.drop 2 else stripped)

/-- Entry file selection, line 336: files.find(f => f.isEntry) || files[0]. -/
def entryFileOf (files : List CodeFile) : Option CodeFile :=
  match files.find? (fun f => f.isEntry) with
  | some f => some f
  | none => files.head?

/-- Running the generated factory on a SourceSet: resolve the entry file,
instantiate its module (the instantiate argument gives getModule's outcome
per normalized module name), and run the entry-resolution fragment. For an
empty SourceSet the source crashes earlier (files[0] is undefined), so the
factory is only defined when an entry exists. -/
def runGeneratedFactory (files : List CodeFile)
    (instantiate : String → Except String JSValue) : Option FactoryResult :=
  (entryFileOf files).map fun f =>
    factoryEntryResolve (instantiate (normalizeFilename f.name))

/-- The claim's designated entry value: the default export if the module has
one, the module object itself otherwise (a missing property is undefined). -/
def designatedExport (m : JSValue) : JSValue :=
  match getField m "default" with
  | .vundefined => m
  | d => d

theorem getField_ne_undefined_vobj {m : JSValue} {k : String}
    (h : getField m k ≠ JSValue.vundefined) : ∃ fields, m = JSValue.vobj fields := by
  cases m with
  | vobj fields => exact ⟨fields, rfl⟩
  | vundefined => exact absurd rfl h
  | vnull => exact absurd rfl h
  | vbool b => exact absurd rfl h
  | vnum n => exact absurd rfl h
  | vstr s => exact absurd rfl h
  | vfunc t => exact absurd rfl h

theorem entryComponentValue_eq_designated_of_isFunction {m : JSValue}
    (h : isFunction (designatedExport m) = true) :
    entryComponentValue m = designatedExport m := by
  unfold designatedExport at *
  unfold entryComponentValue
  cases hd : getField m "default" with
  | vundefined => simp [hd, truthy]
  | vnull => rw [hd] at h; exact absurd h (by simp [isFunction])
  | vbool b => rw [hd] at h; exact absurd h (by simp [isFunction])
  | vnum n => rw [hd] at h; exact absurd h (by simp [isFunction])
  | vstr s => rw [hd] at h; exact absurd h (by simp [isFunction])
  | vfunc t => simp [hd, truthy]
  | vobj fields => rw [hd] at h; exact absurd h (by simp [isFunction])

theorem designatedExport_eq_getField {m : JSValue}
    (h : getField m "default" ≠ JSValue.vundefined) :
    designatedExport m = getField m "default" := by
  unfold designatedExport
  cases hg : getField m "default" with
  | vundefined => exact absurd hg h
  | vnull => rfl
  | vbool b => rfl
  | vnum n => rfl
  | vstr s => rfl
  | vfunc t => rfl
  | vobj fields => rfl

theorem isFunction_entryComponentValue_false {m : JSValue}
    (h : isFunction (designatedExport m) = false) :
    isFunction (entryComponentValue m) = false := by
  unfold entryComponentValue
  by_cases ht : truthy (getField m "default") = true
  · rw [if_pos ht]
    have hne : getField m "default" ≠ JSValue.vundefined := by
      intro he
      rw [he] at ht
      exact absurd ht (by simp [truthy])
    rw [← designatedExport_eq_getField hne]
    exact h
  · rw [if_neg ht]
    by_cases hu : getField m "default" = JSValue.vundefined
    · have hdes : designatedExport m = m := by
        unfold designatedExport
        rw [hu]
      rw [← hdes]
      exact h
    · obtain ⟨fields, rfl⟩ := getField_ne_undefined_vobj hu
      rfl

/-- C1: for every SourceSet with a designated entry file, the generated
factory returns the entry module's default export (or the module object
itself if there is no default) whenever that value is invocable as a
component; otherwise it returns the synthetic error-displaying component
(also when getModule itself fails), and on every input the factory returns a
value rather than letting an exception escape. -/
theorem generatedFactory_entry_contract (files : List CodeFile)
    (instantiate : String → Except String JSValue) (f : CodeFile)
    (hf : entryFileOf files = some f) :
    runGeneratedFactory files instantiate =
      some (factoryEntryResolve (instantiate (normalizeFilename f.name))) ∧
    (∀ m, instantiate (normalizeFilename f.name) = .ok m →
      isFunction (designatedExport m) = true →
      factoryEntryResolve (instantiate (normalizeFilename f.name)) =
        .component (designatedExport m)) ∧
    (∀ m, instantiate (normalizeFilename f.name) = .ok m →
      isFunction (designatedExport m) = false →
      factoryEntryResolve (instantiate (normalizeFilename f.name)) =
        .errorComponent (componentTypeError (entryComponentValue m))) ∧
    (∀ e, instantiate (normalizeFilename f.name) = .error e →
      factoryEntryResolve (instantiate (normalizeFilename f.name)) =
        .errorComponent e) ∧
    ((∃ v, factoryEntryResolve (instantiate (normalizeFilename f.name)) =
        .component v ∧ isFunction v = true) ∨
      (∃ s, factoryEntryResolve (instantiate (normalizeFilename f.name)) =
        .errorComponent s)) := by
  refine ⟨?_, ?_, ?_, ?_, ?_⟩
  · rw [runGeneratedFactory, hf]
    rfl
  · intro m hm hfun
    rw [hm]
    simp only [factoryEntryResolve]
    rw [entryComponentValue_eq_designated_of_isFunction hfun, if_pos hfun]
  · intro m hm hfun
    rw [hm]
    simp only [factoryEntryResolve]
    rw [if_neg (by rw [isFunction_entryComponentValue_false hfun]; exact Bool.false_ne_true)]
  · intro e he
    rw [he]
    rfl
  · cases hg : instantiate (normalizeFilename f.name) with
    | error e => exact Or.inr ⟨e, rfl⟩
    | ok m =>
      simp only [factoryEntryResolve]
      by_cases hfun : isFunction (entryComponentValue m) = true
      · exact Or.inl ⟨entryComponentValue m, by rw [if_pos hfun], hfun⟩
      · exact Or.inr ⟨componentTypeError (entryComponentValue m), by rw [if_neg hfun]⟩

/-- Witness for C1: a one-file SourceSet whose entry module exposes a
function default export; the factory returns exactly that function. -/
theorem generatedFactory_entry_contract_witness :
    entryFileOf [CodeFile.mk "App.tsx" "export default function App()" true] =
      some (CodeFile.mk "App.tsx" "export default function App()" true) ∧
    runGeneratedFactory [CodeFile.mk "App.tsx" "export default function App()" true]
        (fun _ => .ok (JSValue.vobj [("default", JSValue.vfunc 7)])) =
      some (FactoryResult.component (JSValue.vfunc 7)) := by
  refine ⟨rfl, ?_⟩
  have h := generatedFactory_entry_contract
    [CodeFile.mk "App.tsx" "export default function App()" true]
    (fun _ => .ok (JSValue.vobj [("default", JSValue.vfunc 7)]))
    (CodeFile.mk "App.tsx" "export default function App()" true) rfl
  rw [h.1, h.2.1 (JSValue.vobj [("default", JSValue.vfunc 7)]) rfl rfl]
  rfl

/-! ## executeCode (src/unnamed/part_001, lines 109-167)

executeCode normalizes its code argument to a file list, runs the security
screen unless bypassed, then transforms the files, constructs the factory
with new Function, and invokes it; every exception in this whole body is
caught and converted to an error result. The transformation/construction/
invocation part is a parameter (pipeline) of the embedding; concrete
pipelines are assembled from the transformer model below. -/

/-- A security pattern: its printed form (used in the error message via
string interpolation of the RegExp) and its test on file content. -/
structure SecPattern where
  printed : String
  test : String → Bool

/-- ExecutionResult of src/unnamed/part_001 lines 46-50. -/
structure ExecutionResult where
  Component : Option JSValue
  error : Option String
  forbiddenPatterns : Bool

/-- Lines 119-121: a string input becomes the single entry file index.tsx. -/
def toCodeFiles : String ⊕ List CodeFile → List CodeFile
  | .inl s => [⟨"index.tsx", s, true⟩]
  | .inr fs => fs

/-- Error message of line 130. -/
def forbiddenMessage (fileName patternPrinted : String) : String :=
  "Forbidden code pattern detected in " ++ fileName ++ ": " ++ patternPrinted

/-- The nested loops of lines 125-135: for each file in order, for each
pattern in order, return the first (file, pattern) whose test matches. -/
def firstViolation (files : List CodeFile) (patterns : List SecPattern) :
    Option (CodeFile × SecPattern) :=
  match files with
  | [] => none
  | f :: rest =>
    match patterns.find? (fun p => p.test f.content) with
    | some p => some (f, p)
    | none => firstViolation rest patterns

/-- executeCode, lines 109-167. The pipeline argument stands for lines
139-152 (transformMultipleFiles, new Function, factory invocation): its ok
value is the component the factory returned, its error the message of the
exception the try/catch of lines 118-166 converts at lines 159-165. -/
def executeCode (code : String ⊕ List CodeFile) (deps : List (String × JSValue))
    (patterns : List SecPattern) (bypassSecurity : Bool)
    (pipeline : List CodeFile → List (String × JSValue) → Except String JSValue) :
    ExecutionResult :=
  let files := toCodeFiles code
  match (if bypassSecurity then none else firstViolation files patterns) with
  | some (f, p) =>
    { Component := none
      error := some (forbiddenMessage f.name p.printed)
      forbiddenPatterns := true }
  | none =>
    match pipeline files deps with
    | .ok comp => { Component := some comp, error := none, forbiddenPatterns := false }
    | .error e => { Component := none, error := some e, forbiddenPatterns := false }

/-- The first-match condition the claim states: the violation is in the first
file (in file order) that matches any pattern, and within that file it is the
first matching pattern (in pattern order). -/
def FirstMatch (files : List CodeFile) (patterns : List SecPattern)
    (f : CodeFile) (p : SecPattern) : Prop :=
  ∃ i j : Nat, files[i]? = some f ∧ patterns[j]? = some p ∧ p.test f.content = true ∧
    (∀ (i' : Nat) (g : CodeFile), i' < i → files[i']? = some g →
      ∀ q ∈ patterns, q.test g.content = false) ∧
    (∀ (j' : Nat) (q : SecPattern), j' < j → patterns[j']? = some q →
      q.test f.content = false)

theorem find?_first {α : Type} (pred : α → Bool) :
    ∀ (l : List α) (a : α), l.find? pred = some a →
      ∃ j : Nat, l[j]? = some a ∧ pred a = true ∧
        ∀ (j' : Nat) (b : α), j' < j → l[j']? = some b → pred b = false := by
  intro l
  induction l with
  | nil => intro a h; simp [List.find?] at h
  | cons x rest ih =>
    intro a h
    rw [List.find?_cons] at h
    cases hx : pred x with
    | true =>
      rw [hx] at h
      have hxa : x = a := Option.some.inj h
      subst hxa
      exact ⟨0, by simp, hx, fun j' b hj' _ => absurd hj' (by omega)⟩
    | false =>
      rw [hx] at h
      have h' : List.find? pred rest = some a := h
      obtain ⟨j, hj, hpa, hmin⟩ := ih a h'
      refine ⟨j + 1, by simpa using hj, hpa, ?_⟩
      intro j' b hj' hb
      cases j' with
      | zero =>
        simp at hb
        rw [← hb]
        exact hx
      | succ k =>
        simp at hb
        exact hmin k b (by omega) hb

theorem firstViolation_sound (files : List CodeFile) (patterns : List SecPattern)
    (f : CodeFile) (p : SecPattern)
    (h : firstViolation files patterns = some (f, p)) :
    FirstMatch files patterns f p := by
  induction files with
  | nil => simp [firstViolation] at h
  | cons g rest ih =>
    rw [firstViolation] at h
    cases hg : List.find? (fun q => q.test g.content) patterns with
    | some q =>
      rw [hg] at h
      have hpair := Option.some.inj h
      have hfg : g = f := congrArg Prod.fst hpair
      have hpq : q = p := congrArg Prod.snd hpair
      subst hfg
      rw [← hpq]
      obtain ⟨j, hj, hpa, hmin⟩ := find?_first _ patterns q hg
      exact ⟨0, j, by simp, hj, hpa, fun i' g' hi' _ _ _ => absurd hi' (by omega), hmin⟩
    | none =>
      rw [hg] at h
      obtain ⟨i, j, hif, hjp, hp, hfilemin, hpatmin⟩ := ih h
      refine ⟨i + 1, j, by simpa using hif, hjp, hp, ?_, hpatmin⟩
      intro i' g' hi' hg' q hq
      cases i' with
      | zero =>
        simp at hg'
        rw [← hg']
        have := List.find?_eq_none.mp hg q hq
        revert this
        cases q.test g.content <;> simp
      | succ k =>
        simp at hg'
        exact hfilemin k g' (by omega) hg' q hq

theorem firstViolation_complete (files : List CodeFile) (patterns : List SecPattern)
    (f : CodeFile) (p : SecPattern) (hf : f ∈ files) (hp : p ∈ patterns)
    (ht : p.test f.content = true) :
    (firstViolation files patterns).isSome := by
  induction files with
  | nil => simp at hf
  | cons g rest ih =>
    rw [firstViolation]
    cases hg : List.find? (fun q => q.test g.content) patterns with
    | some q => simp
    | none =>
      rcases List.mem_cons.mp hf with hfg | hfr
      · subst hfg
        have := List.find?_eq_none.mp hg p hp
        rw [ht] at this
        simp at this
      · exact ih hfr

/-- C2: with bypass not invoked, if some file's content matches some pattern
then executeCode reports forbiddenPatterns with a null component and an error
naming the first matching file and pattern (file order, then pattern order),
and the result is independent of the transformation pipeline (no
transformation is attempted). -/
theorem executeCode_security_screen (code : String ⊕ List CodeFile)
    (deps : List (String × JSValue)) (patterns : List SecPattern)
    (f : CodeFile) (p : SecPattern)
    (hf : f ∈ toCodeFiles code) (hp : p ∈ patterns) (ht : p.test f.content = true) :
    ∃ (f₀ : CodeFile) (p₀ : SecPattern),
      firstViolation (toCodeFiles code) patterns = some (f₀, p₀) ∧
      FirstMatch (toCodeFiles code) patterns f₀ p₀ ∧
      (∀ pipeline, executeCode code deps patterns false pipeline =
        { Component := none
          error := some (forbiddenMessage f₀.name p₀.printed)
          forbiddenPatterns := true }) := by
  have hsome := firstViolation_complete (toCodeFiles code) patterns f p hf hp ht
  cases hv : firstViolation (toCodeFiles code) patterns with
  | none => rw [hv] at hsome; simp at hsome
  | some v =>
    obtain ⟨f₀, p₀⟩ := v
    refine ⟨f₀, p₀, rfl, firstViolation_sound _ _ _ _ hv, ?_⟩
    intro pipeline
    simp [executeCode, hv]

/-- A model of the default pattern /eval\(/i of src/unnamed/part_001 line 16,
testing for the substring the regex matches (the file content exercised below
is lower case, so the case-insensitivity flag is immaterial). -/
def evalPattern : SecPattern :=
  ⟨"/eval\\(/i", fun s => decide ("eval(".data <:+: s.data)⟩

/-- Witness for C2: a single-file source containing an eval call, screened by
the default eval pattern. -/
theorem executeCode_security_screen_witness :
    (CodeFile.mk "index.tsx" "eval(danger)" true ∈
      toCodeFiles (Sum.inl "eval(danger)")) ∧
    (evalPattern ∈ [evalPattern]) ∧
    (evalPattern.test "eval(danger)" = true) ∧
    (∃ (f₀ : CodeFile) (p₀ : SecPattern),
      firstViolation (toCodeFiles (Sum.inl "eval(danger)")) [evalPattern] =
        some (f₀, p₀) ∧
      FirstMatch (toCodeFiles (Sum.inl "eval(danger)")) [evalPattern] f₀ p₀ ∧
      (∀ pipeline,
        executeCode (Sum.inl "eval(danger)") [] [evalPattern] false pipeline =
          { Component := none
            error := some (forbiddenMessage f₀.name p₀.printed)
            forbiddenPatterns := true })) :=
  ⟨List.Mem.head _, List.Mem.head _, by decide,
    executeCode_security_screen (Sum.inl "eval(danger)") [] [evalPattern]
      (CodeFile.mk "index.tsx" "eval(danger)" true) evalPattern
      (List.Mem.head _) (List.Mem.head _) (by decide)⟩

/-- C9: executeCode is total at its boundary — every call returns an
ExecutionResult of exactly one of the three shapes (component, converted
error, security violation), a pipeline exception is converted into
Component = null / error = message / forbiddenPatterns = false, and a
pipeline success is returned as the component. -/
theorem executeCode_total (code : String ⊕ List CodeFile)
    (deps : List (String × JSValue)) (patterns : List SecPattern)
    (bypassSecurity : Bool)
    (pipeline : List CodeFile → List (String × JSValue) → Except String JSValue) :
    ((∃ c : JSValue, executeCode code deps patterns bypassSecurity pipeline =
        { Component := some c, error := none, forbiddenPatterns := false }) ∨
      (∃ e : String, executeCode code deps patterns bypassSecurity pipeline =
        { Component := none, error := some e, forbiddenPatterns := false }) ∨
      (∃ (f : CodeFile) (p : SecPattern),
        executeCode code deps patterns bypassSecurity pipeline =
        { Component := none
          error := some (forbiddenMessage f.name p.printed)
          forbiddenPatterns := true } ∧ bypassSecurity = false)) ∧
    ((bypassSecurity = true ∨ firstViolation (toCodeFiles code) patterns = none) →
      ∀ e, pipeline (toCodeFiles code) deps = .error e →
        executeCode code deps patterns bypassSecurity pipeline =
          { Component := none, error := some e, forbiddenPatterns := false }) ∧
    ((bypassSecurity = true ∨ firstViolation (toCodeFiles code) patterns = none) →
      ∀ c, pipeline (toCodeFiles code) deps = .ok c →
        executeCode code deps patterns bypassSecurity pipeline =
          { Component := some c, error := none, forbiddenPatterns := false }) := by
  refine ⟨?_, ?_, ?_⟩
  · cases hb : bypassSecurity with
    | true =>
      cases hpl : pipeline (toCodeFiles code) deps with
      | ok c => exact Or.inl ⟨c, by simp [executeCode, hpl]⟩
      | error e => exact Or.inr (Or.inl ⟨e, by simp [executeCode, hpl]⟩)
    | false =>
      cases hv : firstViolation (toCodeFiles code) patterns with
      | some v =>
        obtain ⟨f₀, p₀⟩ := v
        exact Or.inr (Or.inr ⟨f₀, p₀, by simp [executeCode, hv], rfl⟩)
      | none =>
        cases hpl : pipeline (toCodeFiles code) deps with
        | ok c => exact Or.inl ⟨c, by simp [executeCode, hv, hpl]⟩
        | error e => exact Or.inr (Or.inl ⟨e, by simp [executeCode, hv, hpl]⟩)
  · intro hpre e hpl
    rcases hpre with hb | hv
    · subst hb
      simp [executeCode, hpl]
    · cases hb : bypassSecurity with
      | true => simp [executeCode, hpl]
      | false => simp [executeCode, hv, hpl]
  · intro hpre c hpl
    rcases hpre with hb | hv
    · subst hb
      simp [executeCode, hpl]
    · cases hb : bypassSecurity with
      | true => simp [executeCode, hpl]
      | false => simp [executeCode, hv, hpl]

/-- Witness for C9: a pipeline that throws is converted into the error
result shape. -/
theorem executeCode_total_witness :
    firstViolation (toCodeFiles (Sum.inl "const x = 1")) [] = none ∧
    (fun (_ : List CodeFile) (_ : List (String × JSValue)) =>
        (Except.error "boom" : Except String JSValue))
      (toCodeFiles (Sum.inl "const x = 1")) [] = Except.error "boom" ∧
    executeCode (Sum.inl "const x = 1") [] [] false
        (fun _ _ => Except.error "boom") =
      { Component := none, error := some "boom", forbiddenPatterns := false } :=
  ⟨rfl, rfl,
    (executeCode_total (Sum.inl "const x = 1") [] [] false
      (fun _ _ => Except.error "boom")).2.1 (Or.inr rfl) "boom" rfl⟩

/-! ## Import classification (createImportTransformerPlugin,
src/src/utils/cdn-resolver.ts lines 528-723)

The plugin visits each ImportDeclaration of a file in order and classifies
its source: the react package, a local module of the SourceSet (by normalized
name), a provided dependency, or an external package. An external package
that is not provided is tolerated when autoResolvePackage is true (rewritten
to a sanitized variable, line 615) and makes the plugin throw when it is
false (line 619). Import extraction itself (Babel parsing) is abstracted as a
function from file content to the list of import sources, in order. -/

/-- Sanitization of a package identifier into a generated variable name
(lines 278, 345, 615): every character outside [a-zA-Z0-9_] becomes an
underscore. -/
def sanitizeDepName (s : String) : String :=
  String.mk (s.data.map fun c => if c.isAlphanum || c == '_' then c else '_')

/-- The dependencyVarMap of lines 276-280: each dependency key mapped to its
sanitized variable name. -/
def buildDependencyVarMap (depKeys : List String) : List (String × String) :=
  depKeys.map fun d => (d, sanitizeDepName d)

/-- Error message thrown at line 619. -/
def moduleNotFoundMessage (source : String) : String :=
  "Module not found: " ++ source ++
    ". To enable automatic CDN resolution, set autoResolvePackage to true."

/-- What an import statement is rewritten into. -/
inductive ImportResolution where
  | reactBinding
  | localModule (normalized : String)
  | dependencyVar (varName : String)
deriving DecidableEq

/-- Classification of one import source by the plugin visitor
(lines 553-621, 684-719): react is rewritten to bindings off the framework
handle; a local module to getModule reads; a provided or auto-resolved
external package to the sanitized dependency variable; an unprovided
external package with autoResolvePackage disabled throws. -/
def processImport (allowedDependencies : List String) (localNorms : List String)
    (autoResolvePackage : Bool) (source : String) : Except String ImportResolution :=
  if source = "react" then .ok .reactBinding
  else
    let normalizedSource := normalizeFilename source
    let isLocalModule := localNorms.contains normalizedSource
    let isProvidedDependency := allowedDependencies.contains source
    if ¬isLocalModule ∧ ¬isProvidedDependency then
      if autoResolvePackage then .ok (.dependencyVar (sanitizeDepName source))
      else .error (moduleNotFoundMessage source)
    else if isLocalModule then .ok (.localModule normalizedSource)
    else .ok (.dependencyVar (sanitizeDepName source))

/-- The plugin applied to all imports of one file in order; the first
classification error aborts the traversal (a Babel plugin throw). -/
def processFileImports (allowedDependencies : List String) (localNorms : List String)
    (autoResolvePackage : Bool) : List String → Except String (List ImportResolution)
  | [] => .ok []
  | s :: rest => do
    let r ← processImport allowedDependencies localNorms autoResolvePackage s
    let rs ← processFileImports allowedDependencies localNorms autoResolvePackage rest
    .ok (r :: rs)

/-- The import-rewriting part of transformMultipleFiles (lines 272-334):
files are transformed in order with the plugin built from the dependency
keys and the SourceSet's normalized names; a throw from any file's transform
escapes the whole call. importsOf abstracts Babel's extraction of the import
sources of a file's content, in order. -/
def transformFilesImportsGo (importsOf : String → List String) (depKeys : List String)
    (localNorms : List String) (autoResolvePackage : Bool) :
    List CodeFile → Except String (List (String × List ImportResolution))
  | [] => .ok []
  | f :: rest => do
    let rs ← processFileImports depKeys localNorms autoResolvePackage
      (importsOf f.content)
    let others ← transformFilesImportsGo importsOf depKeys localNorms
      autoResolvePackage rest
    .ok ((f.name, rs) :: others)

/-- transformFilesImports with the normalized local-module names of the
SourceSet (lines 543-548) supplied to the per-file traversal. -/
def transformFilesImports (importsOf : String → List String) (files : List CodeFile)
    (depKeys : List String) (autoResolvePackage : Bool) :
    Except String (List (String × List ImportResolution)) :=
  transformFilesImportsGo importsOf depKeys
    (files.map fun f => normalizeFilename f.name) autoResolvePackage files

/-- Substring containment, used to state that an error message names a
package or file. -/
def ContainsStr (hay needle : String) : Prop :=
  needle.data <:+: hay.data

/-! ## The two-pass structure of transformMultipleFiles (lines 226-334)

Pass 1 (lines 236-269) computes ExportInfo for every file of the SourceSet;
pass 2 (lines 272-334) transforms each file, consulting the completed
ExportInfo map (the plugin reads it only through Map.get by file name,
lines 273 and 628). The per-file export scan and the per-file transform are
abstracted as parameters; the claim is about the dataflow between the
passes. -/

/-- ExportInfo of lines 227-234. -/
structure ExportInfo where
  hasDefaultExport : Bool
  namedExports : List String
  exportedName : Option String
deriving DecidableEq

/-- Pass 1: the ExportInfo map, keyed by (non-normalized) file name. -/
def exportInfoPass (scanExports : String → ExportInfo) (files : List CodeFile) :
    List (String × ExportInfo) :=
  files.map fun f => (f.name, scanExports f.content)

/-- Map.get on the pass-1 result. -/
def exportInfoLookup (info : List (String × ExportInfo)) (n : String) :
    Option ExportInfo :=
  (info.find? fun e => e.1 = n).map fun e => e.2

/-- The two passes of transformMultipleFiles: compute every file's
ExportInfo, then transform each file with read access (by name) to the
completed map. -/
def transformFilesPasses {α : Type} (scanExports : String → ExportInfo)
    (transformOne : (String → Option ExportInfo) → CodeFile → α)
    (files : List CodeFile) : List (String × α) :=
  files.map fun f =>
    (f.name, transformOne (exportInfoLookup (exportInfoPass scanExports files)) f)

/-! ## The CodeExecutor dependency-resolution effect and error callback
(src/unnamed/part_001) -/

/-- The dependency-resolution effect of lines 263-358 at the level of CDN
state: when autoResolvePackage is false it returns early (lines 268-272)
without touching the resolver; otherwise it resolves each missing identifier
(lines 314-326). -/
def resolveDependenciesEffect (autoResolvePackage : Bool) (missing : List String)
    (realm : Option Nat) (st : CDNState) : CDNState :=
  if autoResolvePackage then
    missing.foldl (fun s d => (resolvePackageFromCDN realm d s).2) st
  else st

/-- The per-dependency catch of lines 317-324: a rejected resolution is
logged and mapped to null; the run then omits that binding (lines 329-338). -/
def cdnDepOutcome : Except String JSValue → Option JSValue
  | .ok m => some m
  | .error _ => none

/-- The dependency map the run proceeds with (lines 311-340): the caller's
dependencies plus the successfully resolved missing ones; failed resolutions
are omitted. The fetch argument returns the settlement of the dependency's
resolution promise together with the list of URLs it fetched. -/
def resolvedDepsAfterCDN (deps : List (String × JSValue)) (missing : List String)
    (fetch : String → Except String JSValue × List String) :
    List (String × JSValue) :=
  deps ++ missing.filterMap fun d =>
    match cdnDepOutcome (fetch d).1 with
    | some m => some (d, m)
    | none => none

/-- A JavaScript throwable as the catch blocks of the execution effects
observe it: either an Error instance (carrying err.message) or any other
value, carried as its String(err) conversion — the only observation the
code makes of a non-Error throwable. -/
inductive JSThrown where
  | jsError (message : String)
  | other (stringValue : String)

/-- The execution effects of part_001 (non-sandbox: lines 473-497; sandbox:
lines 442-472, same try/catch structure with renderInSandbox and
cleanupSandbox among the applied steps; handleBypassSecurity, lines 513-547,
likewise): the try body computes executeCode — which itself returns rather
than throwing, see executeCode_total — and then applies the result to the
host (setExecutionResult, the prev-refs updates, and on the sandbox path
renderInSandbox), abstracted as the applyResult argument since these host
calls can throw; the catch converts the thrown value into an error result
(err.message for an Error, String(err) otherwise, lines 463/488/538) and
invokes onError only when onError is supplied and the thrown value is an
Error (lines 469/494/544). Returns the resulting ExecutionResult and the
number of onError invocations. -/
def runExecutionEffect (hasOnError : Bool) (code : String ⊕ List CodeFile)
    (deps : List (String × JSValue)) (patterns : List SecPattern)
    (pipeline : List CodeFile → List (String × JSValue) → Except String JSValue)
    (applyResult : ExecutionResult → Except JSThrown Unit) :
    ExecutionResult × Nat :=
  match applyResult (executeCode code deps patterns false pipeline) with
  | .ok _ => (executeCode code deps patterns false pipeline, 0)
  | .error (.jsError message) =>
    ({ Component := none, error := some message, forbiddenPatterns := false },
      if hasOnError then 1 else 0)
  | .error (.other stringValue) =>
    ({ Component := none, error := some stringValue, forbiddenPatterns := false }, 0)

/-- handleExecutionError (lines 558-573), the error-boundary callback for
render/mount failures: it nulls the component, records the message, and
invokes onError exactly once when the caller supplied it. -/
def handleExecutionError (hasOnError : Bool) (prev : ExecutionResult)
    (message : String) : ExecutionResult × Nat :=
  ({ Component := none, error := some message,
     forbiddenPatterns := prev.forbiddenPatterns },
    if hasOnError then 1 else 0)

/-! ## Remote registry fetch with fallback (resolvePackageFromCDN,
src/src/utils/cdn-resolver.ts lines 54-98) -/

/-- Primary registry URL (line 63). -/
def primaryUrl (pkg : String) : String :=
  "https://esm.sh/" ++ pkg ++ "?external=react,react-dom&target=es2022&dev"

/-- Fallback registry URL (line 78). -/
def fallbackUrl (pkg : String) : String :=
  "https://cdn.jsdelivr.net/npm/" ++ pkg ++ "/+esm"

/-- Composite error message of lines 85-95. -/
def compositeErrorMessage (pkg primaryError fallbackError : String) : String :=
  "Failed to resolve " ++ pkg ++ " from CDN. Primary error: " ++ primaryError ++
    ". Fallback error: " ++ fallbackError

/-- The body of the resolution promise (lines 54-98): fetch the primary URL;
on failure fetch the fallback URL once; if that fails too, reject with the
composite error. The network argument maps a URL to its import outcome; the
returned list records the URLs fetched, in order. -/
def fetchWithFallback (network : String → Except String JSValue) (pkg : String) :
    Except String JSValue × List String :=
  match network (primaryUrl pkg) with
  | .ok m => (.ok m, [primaryUrl pkg])
  | .error e₁ =>
    match network (fallbackUrl pkg) with
    | .ok m => (.ok m, [primaryUrl pkg, fallbackUrl pkg])
    | .error e₂ =>
      (.error (compositeErrorMessage pkg e₁ e₂), [primaryUrl pkg, fallbackUrl pkg])

/-- C10: the sanitization of package identifiers into generated variable
names is not injective — the distinct identifiers foo-bar and foo.bar of one
DependencyMap sanitize to the same name foo_bar, so the dependencyVarMap
binds the same generated variable for both dependencies. -/
theorem sanitizeDepName_not_injective :
    sanitizeDepName "foo-bar" = "foo_bar" ∧
    sanitizeDepName "foo.bar" = "foo_bar" ∧
    ("foo-bar" : String) ≠ "foo.bar" ∧
    buildDependencyVarMap ["foo-bar", "foo.bar"] =
      [("foo-bar", "foo_bar"), ("foo.bar", "foo_bar")] := by
  refine ⟨by decide, by decide, by decide, by decide⟩

theorem processImport_error_eq {allowedDependencies localNorms : List String}
    {autoResolvePackage : Bool} {s e : String}
    (h : processImport allowedDependencies localNorms autoResolvePackage s = .error e) :
    e = moduleNotFoundMessage s ∧ autoResolvePackage = false := by
  unfold processImport at h
  by_cases hr : s = "react"
  · rw [if_pos hr] at h
    exact absurd h (by simp)
  · rw [if_neg hr] at h
    by_cases hext : ¬(localNorms.contains (normalizeFilename s) = true) ∧
        ¬(allowedDependencies.contains s = true)
    · rw [if_pos hext] at h
      cases ha : autoResolvePackage with
      | true =>
        rw [ha] at h
        rw [if_pos rfl] at h
        exact absurd h (by simp)
      | false =>
        rw [ha] at h
        rw [if_neg (by simp)] at h
        exact ⟨(Except.error.inj h).symm, rfl⟩
    · rw [if_neg hext] at h
      by_cases hl : localNorms.contains (normalizeFilename s) = true
      · rw [if_pos hl] at h
        exact absurd h (by simp)
      · rw [if_neg hl] at h
        exact absurd h (by simp)

theorem processImport_unresolved_noauto {allowedDependencies localNorms : List String}
    {s : String} (hr : s ≠ "react")
    (hl : localNorms.contains (normalizeFilename s) = false)
    (hd : allowedDependencies.contains s = false) :
    processImport allowedDependencies localNorms false s =
      .error (moduleNotFoundMessage s) := by
  unfold processImport
  rw [if_neg hr, if_pos ⟨by simpa using hl, by simpa using hd⟩, if_neg (by simp)]

theorem processFileImports_error {allowedDependencies localNorms : List String}
    {autoResolvePackage : Bool} :
    ∀ {imports : List String} {e : String},
      processFileImports allowedDependencies localNorms autoResolvePackage imports =
        .error e →
      ∃ s ∈ imports,
        processImport allowedDependencies localNorms autoResolvePackage s =
          .error e := by
  intro imports
  induction imports with
  | nil => intro e h; simp [processFileImports] at h
  | cons x rest ih =>
    intro e h
    rw [processFileImports] at h
    cases hx : processImport allowedDependencies localNorms autoResolvePackage x with
    | error e' =>
      rw [hx] at h
      have h' : (Except.error e' : Except String (List ImportResolution)) =
        .error e := h
      have he' : e' = e := Except.error.inj h'
      exact ⟨x, List.mem_cons_self x rest, he' ▸ hx⟩
    | ok r =>
      rw [hx] at h
      cases hrest : processFileImports allowedDependencies localNorms
          autoResolvePackage rest with
      | error e'' =>
        rw [hrest] at h
        have h' : (Except.error e'' : Except String (List ImportResolution)) =
          .error e := h
        obtain ⟨s, hs, hps⟩ := ih ((Except.error.inj h') ▸ hrest)
        exact ⟨s, List.mem_cons_of_mem x hs, hps⟩
      | ok rs =>
        rw [hrest] at h
        have h' : (Except.ok (r :: rs) : Except String (List ImportResolution)) =
          .error e := h
        exact absurd h' (by simp)

theorem processFileImports_error_of_bad {allowedDependencies localNorms : List String}
    {s : String} (hs : processImport allowedDependencies localNorms false s =
      .error (moduleNotFoundMessage s)) :
    ∀ {imports : List String}, s ∈ imports →
      ∃ e, processFileImports allowedDependencies localNorms false imports =
        .error e := by
  intro imports
  induction imports with
  | nil => intro h; simp at h
  | cons x rest ih =>
    intro hmem
    rw [processFileImports]
    cases hx : processImport allowedDependencies localNorms false x with
    | error e' => exact ⟨e', rfl⟩
    | ok r =>
      rcases List.mem_cons.mp hmem with hsx | hsr
      · subst hsx
        rw [hs] at hx
        exact absurd hx (by simp)
      · obtain ⟨e, he⟩ := ih hsr
        refine ⟨e, ?_⟩
        rw [he]
        rfl

theorem transformFilesImportsGo_error {importsOf : String → List String}
    {depKeys localNorms : List String} {autoResolvePackage : Bool} :
    ∀ {files : List CodeFile} {e : String},
      transformFilesImportsGo importsOf depKeys localNorms autoResolvePackage files =
        .error e →
      ∃ f ∈ files, ∃ s ∈ importsOf f.content,
        processImport depKeys localNorms autoResolvePackage s = .error e := by
  intro files
  induction files with
  | nil => intro e h; simp [transformFilesImportsGo] at h
  | cons f rest ih =>
    intro e h
    rw [transformFilesImportsGo] at h
    cases hf : processFileImports depKeys localNorms autoResolvePackage
        (importsOf f.content) with
    | error e' =>
      rw [hf] at h
      have h' : (Except.error e' :
        Except String (List (String × List ImportResolution))) = .error e := h
      obtain ⟨s, hs, hps⟩ := processFileImports_error ((Except.error.inj h') ▸ hf)
      exact ⟨f, List.mem_cons_self f rest, s, hs, hps⟩
    | ok rs =>
      rw [hf] at h
      cases hrest : transformFilesImportsGo importsOf depKeys localNorms
          autoResolvePackage rest with
      | error e'' =>
        rw [hrest] at h
        have h' : (Except.error e'' :
          Except String (List (String × List ImportResolution))) = .error e := h
        obtain ⟨g, hg, s, hs, hps⟩ := ih ((Except.error.inj h') ▸ hrest)
        exact ⟨g, List.mem_cons_of_mem f hg, s, hs, hps⟩
      | ok others =>
        rw [hrest] at h
        have h' : (Except.ok ((f.name, rs) :: others) :
          Except String (List (String × List ImportResolution))) = .error e := h
        exact absurd h' (by simp)

theorem transformFilesImportsGo_error_of_bad {importsOf : String → List String}
    {depKeys localNorms : List String} {g : CodeFile} {s : String}
    (hs : s ∈ importsOf g.content)
    (hbad : processImport depKeys localNorms false s =
      .error (moduleNotFoundMessage s)) :
    ∀ {files : List CodeFile}, g ∈ files →
      ∃ e, transformFilesImportsGo importsOf depKeys localNorms false files =
        .error e := by
  intro files
  induction files with
  | nil => intro h; simp at h
  | cons f rest ih =>
    intro hmem
    rw [transformFilesImportsGo]
    cases hf : processFileImports depKeys localNorms false (importsOf f.content) with
    | error e' => exact ⟨e', rfl⟩
    | ok rs =>
      rcases List.mem_cons.mp hmem with hgf | hgr
      · subst hgf
        obtain ⟨e, he⟩ := processFileImports_error_of_bad hbad hs
        rw [he] at hf
        exact absurd hf (by simp)
      · obtain ⟨e, he⟩ := ih hgr
        refine ⟨e, ?_⟩
        rw [he]
        rfl

theorem containsStr_moduleNotFound (p : String) :
    ContainsStr (moduleNotFoundMessage p) p := by
  refine ⟨("Module not found: " : String).data,
    (". To enable automatic CDN resolution, set autoResolvePackage to true." :
      String).data, ?_⟩
  rw [moduleNotFoundMessage]
  rw [String.data_append, String.data_append]

/-- C5 (amended): with auto-resolution disabled, a file importing a package
that is neither react nor a local file nor a provided dependency makes
transformation fail immediately with an unresolved-dependency error; the
error names the offending package (not the importing file), and the
dependency-resolution effect performs no CDN resolution at all. -/
theorem transform_unresolved_dependency_fails (importsOf : String → List String)
    (files : List CodeFile) (depKeys : List String) (f : CodeFile) (pkg : String)
    (hf : f ∈ files) (hpkg : pkg ∈ importsOf f.content) (hr : pkg ≠ "react")
    (hlocal : (files.map fun g => normalizeFilename g.name).contains
      (normalizeFilename pkg) = false)
    (hdep : depKeys.contains pkg = false) :
    (∃ e, transformFilesImports importsOf files depKeys false = .error e) ∧
    (∀ e, transformFilesImports importsOf files depKeys false = .error e →
      ∃ badPkg, e = moduleNotFoundMessage badPkg ∧ ContainsStr e badPkg ∧
        ∃ g ∈ files, badPkg ∈ importsOf g.content) ∧
    (∀ (missing : List String) (realm : Option Nat) (st : CDNState),
      resolveDependenciesEffect false missing realm st = st) := by
  refine ⟨?_, ?_, ?_⟩
  · exact transformFilesImportsGo_error_of_bad hpkg
      (processImport_unresolved_noauto hr hlocal hdep) hf
  · intro e he
    obtain ⟨g, hg, s, hsmem, hps⟩ := transformFilesImportsGo_error he
    obtain ⟨hshape, _⟩ := processImport_error_eq hps
    exact ⟨s, hshape, hshape ▸ containsStr_moduleNotFound s, g, hg, hsmem⟩
  · intro missing realm st
    rfl

/-- Import extraction for the concrete scenario-D SourceSet: the single file
imports the package left-pad. -/
def importsOfLeftPad : String → List String := fun c =>
  if c = "import leftPad from left-pad" then ["left-pad"] else []

/-- The concrete scenario-D SourceSet: one entry file importing left-pad. -/
def leftPadFiles : List CodeFile :=
  [CodeFile.mk "App.tsx" "import leftPad from left-pad" true]

/-- Witness for C5 (amended) at the scenario-D SourceSet. -/
theorem transform_unresolved_dependency_fails_witness :
    (CodeFile.mk "App.tsx" "import leftPad from left-pad" true ∈ leftPadFiles) ∧
    ("left-pad" ∈ importsOfLeftPad "import leftPad from left-pad") ∧
    (("left-pad" : String) ≠ "react") ∧
    ((∃ e, transformFilesImports importsOfLeftPad leftPadFiles [] false = .error e) ∧
      (∀ e, transformFilesImports importsOfLeftPad leftPadFiles [] false = .error e →
        ∃ badPkg, e = moduleNotFoundMessage badPkg ∧ ContainsStr e badPkg ∧
          ∃ g ∈ leftPadFiles, badPkg ∈ importsOfLeftPad g.content) ∧
      (∀ (missing : List String) (realm : Option Nat) (st : CDNState),
        resolveDependenciesEffect false missing realm st = st)) :=
  ⟨List.Mem.head _, List.Mem.head _, by decide,
    transform_unresolved_dependency_fails importsOfLeftPad leftPadFiles []
      (CodeFile.mk "App.tsx" "import leftPad from left-pad" true) "left-pad"
      (List.Mem.head _) (List.Mem.head _) (by decide) (by decide) (by decide)⟩

set_option maxRecDepth 16384 in
/-- C5 counterexample: the unresolved-dependency error of the concrete
scenario-D run names the package left-pad but does not name the importing
file App.tsx — the claim that the error names both the package and the file
fails on this input. -/
theorem transform_unresolved_error_omits_filename :
    transformFilesImports importsOfLeftPad leftPadFiles [] false =
      .error (moduleNotFoundMessage "left-pad") ∧
    ContainsStr (moduleNotFoundMessage "left-pad") "left-pad" ∧
    ¬ ContainsStr (moduleNotFoundMessage "left-pad") "App.tsx" :=
  ⟨rfl, containsStr_moduleNotFound "left-pad", by unfold ContainsStr; decide⟩

theorem find?_map_key {β : Type} (val : CodeFile → β) :
    ∀ (files : List CodeFile), ((files.map fun f => f.name).Nodup) →
      ∀ {g : CodeFile}, g ∈ files →
        ((files.map fun f => (f.name, val f)).find? fun e => e.1 = g.name) =
          some (g.name, val g) := by
  intro files
  induction files with
  | nil => intro _ g hg; simp at hg
  | cons x rest ih =>
    intro hnd g hg
    have hnd' : x.name ∉ (rest.map fun f => f.name) ∧
        ((rest.map fun f => f.name)).Nodup := by
      rw [List.map_cons] at hnd
      exact List.nodup_cons.mp hnd
    obtain ⟨hx, hrest⟩ := hnd'
    rcases List.mem_cons.mp hg with hgx | hgr
    · subst hgx
      simp [List.find?]
    · have hne : x.name ≠ g.name := by
        intro he
        exact hx (he ▸ List.mem_map_of_mem (fun f => f.name) hgr)
      have hdec : (decide (x.name = g.name)) = false := by
        simpa using hne
      rw [List.map_cons, List.find?_cons,
        show (decide ((x.name, val x).1 = g.name)) = false from hdec]
      exact ih hrest hgr

theorem find?_key_perm {β : Type} {l l' : List (String × β)} (hperm : l.Perm l')
    (hnd : (l.map Prod.fst).Nodup) (n : String) :
    (l.find? fun e => e.1 = n) = (l'.find? fun e => e.1 = n) := by
  cases hf : (l.find? fun e => e.1 = n) with
  | some x =>
    have hx1 : x ∈ l := List.mem_of_find?_eq_some hf
    have hpx0 := List.find?_some hf
    have hpx : (x.1 = n) := by simpa using hpx0
    cases hf' : (l'.find? fun e => e.1 = n) with
    | some y =>
      have hy1 : y ∈ l' := List.mem_of_find?_eq_some hf'
      have hpy0 := List.find?_some hf'
      have hpy : (y.1 = n) := by simpa using hpy0
      have hxy : x = y :=
        List.inj_on_of_nodup_map hnd hx1 (hperm.mem_iff.mpr hy1) (hpx.trans hpy.symm)
      rw [hxy]
    | none =>
      have hnone := List.find?_eq_none.mp hf' x (hperm.mem_iff.mp hx1)
      rw [hpx0] at hnone
      simp at hnone
  | none =>
    cases hf' : (l'.find? fun e => e.1 = n) with
    | some y =>
      have hy1 : y ∈ l' := List.mem_of_find?_eq_some hf'
      have hpy0 := List.find?_some hf'
      have hnone := List.find?_eq_none.mp hf y (hperm.mem_iff.mpr hy1)
      rw [hpy0] at hnone
      simp at hnone
    | none => rfl

theorem exportInfoPass_keys (scanExports : String → ExportInfo)
    (files : List CodeFile) :
    (exportInfoPass scanExports files).map Prod.fst = files.map fun f => f.name := by
  unfold exportInfoPass
  rw [List.map_map]
  rfl

theorem transformFilesPasses_keys {α : Type} (scanExports : String → ExportInfo)
    (transformOne : (String → Option ExportInfo) → CodeFile → α)
    (files : List CodeFile) :
    (transformFilesPasses scanExports transformOne files).map Prod.fst =
      files.map fun f => f.name := by
  unfold transformFilesPasses
  rw [List.map_map]
  rfl

/-- C8: the two-pass dataflow of transformMultipleFiles — pass 1 computes
ExportInfo for every file of the SourceSet, and the lookup handed to every
file's pass-2 transform contains the pass-1 ExportInfo of every file (so any
file's import rewrite can consult any other file's exports); each file's
transformed module is exactly its transform under that completed lookup; and
apart from this two-pass dataflow the per-file result is order-independent:
for a name-unique SourceSet, permuting the files changes no file's
transformed module. -/
theorem transformMultipleFiles_two_pass {α : Type}
    (scanExports : String → ExportInfo)
    (transformOne : (String → Option ExportInfo) → CodeFile → α)
    (files files' : List CodeFile)
    (hnd : (files.map fun f => f.name).Nodup) (hperm : files.Perm files') :
    (∀ g ∈ files, exportInfoLookup (exportInfoPass scanExports files) g.name =
      some (scanExports g.content)) ∧
    (∀ f ∈ files,
      (((transformFilesPasses scanExports transformOne files).find?
          fun e => e.1 = f.name).map fun e => e.2) =
        some (transformOne
          (exportInfoLookup (exportInfoPass scanExports files)) f)) ∧
    (∀ n : String,
      (((transformFilesPasses scanExports transformOne files).find?
          fun e => e.1 = n).map fun e => e.2) =
        (((transformFilesPasses scanExports transformOne files').find?
          fun e => e.1 = n).map fun e => e.2)) := by
  have hpassperm : (exportInfoPass scanExports files).Perm
      (exportInfoPass scanExports files') := by
    unfold exportInfoPass
    exact hperm.map _
  have hlookup : exportInfoLookup (exportInfoPass scanExports files) =
      exportInfoLookup (exportInfoPass scanExports files') := by
    funext n
    unfold exportInfoLookup
    rw [find?_key_perm hpassperm (by rw [exportInfoPass_keys]; exact hnd) n]
  refine ⟨?_, ?_, ?_⟩
  · intro g hg
    unfold exportInfoLookup exportInfoPass
    rw [find?_map_key (fun f => scanExports f.content) files hnd hg]
    rfl
  · intro f hf
    unfold transformFilesPasses
    rw [find?_map_key
      (fun f => transformOne (exportInfoLookup (exportInfoPass scanExports files)) f)
      files hnd hf]
    rfl
  · intro n
    have hres : (transformFilesPasses scanExports transformOne files').Perm
        (transformFilesPasses scanExports transformOne files) := by
      unfold transformFilesPasses
      rw [← hlookup]
      exact (hperm.map fun f =>
        (f.name, transformOne
          (exportInfoLookup (exportInfoPass scanExports files)) f)).symm
    rw [find?_key_perm hres.symm
      (by rw [transformFilesPasses_keys]; exact hnd) n]

/-- Witness for C8 at a concrete two-file SourceSet and its swap. -/
theorem transformMultipleFiles_two_pass_witness :
    (([CodeFile.mk "A.tsx" "a" true, CodeFile.mk "B.tsx" "b" false].map
      fun f => f.name).Nodup) ∧
    ([CodeFile.mk "A.tsx" "a" true, CodeFile.mk "B.tsx" "b" false].Perm
      [CodeFile.mk "B.tsx" "b" false, CodeFile.mk "A.tsx" "a" true]) ∧
    ((∀ g ∈ [CodeFile.mk "A.tsx" "a" true, CodeFile.mk "B.tsx" "b" false],
      exportInfoLookup (exportInfoPass (fun c => ExportInfo.mk false [] (some c))
        [CodeFile.mk "A.tsx" "a" true, CodeFile.mk "B.tsx" "b" false]) g.name =
        some (ExportInfo.mk false [] (some g.content))) ∧
    (∀ f ∈ [CodeFile.mk "A.tsx" "a" true, CodeFile.mk "B.tsx" "b" false],
      (((transformFilesPasses (fun c => ExportInfo.mk false [] (some c))
          (fun look f => look f.name)
          [CodeFile.mk "A.tsx" "a" true, CodeFile.mk "B.tsx" "b" false]).find?
          fun e => e.1 = f.name).map fun e => e.2) =
        some ((exportInfoLookup (exportInfoPass
          (fun c => ExportInfo.mk false [] (some c))
          [CodeFile.mk "A.tsx" "a" true, CodeFile.mk "B.tsx" "b" false])) f.name)) ∧
    (∀ n : String,
      (((transformFilesPasses (fun c => ExportInfo.mk false [] (some c))
          (fun look f => look f.name)
          [CodeFile.mk "A.tsx" "a" true, CodeFile.mk "B.tsx" "b" false]).find?
          fun e => e.1 = n).map fun e => e.2) =
        (((transformFilesPasses (fun c => ExportInfo.mk false [] (some c))
          (fun look f => look f.name)
          [CodeFile.mk "B.tsx" "b" false, CodeFile.mk "A.tsx" "a" true]).find?
          fun e => e.1 = n).map fun e => e.2))) :=
  ⟨by decide, List.Perm.swap (CodeFile.mk "B.tsx" "b" false)
      (CodeFile.mk "A.tsx" "a" true) [],
    transformMultipleFiles_two_pass (fun c => ExportInfo.mk false [] (some c))
      (fun look f => look f.name)
      [CodeFile.mk "A.tsx" "a" true, CodeFile.mk "B.tsx" "b" false]
      [CodeFile.mk "B.tsx" "b" false, CodeFile.mk "A.tsx" "a" true]
      (by decide)
      (List.Perm.swap (CodeFile.mk "B.tsx" "b" false)
        (CodeFile.mk "A.tsx" "a" true) [])⟩

theorem primaryUrl_ne_fallbackUrl (pkg : String) : primaryUrl pkg ≠ fallbackUrl pkg := by
  intro h
  have hl := congrArg String.length h
  rw [primaryUrl, fallbackUrl, String.length_append, String.length_append,
    String.length_append, String.length_append] at hl
  have h1 : ("https://esm.sh/" : String).length = 15 := rfl
  have h2 : ("?external=react,react-dom&target=es2022&dev" : String).length = 43 := rfl
  have h3 : ("https://cdn.jsdelivr.net/npm/" : String).length = 29 := rfl
  have h4 : ("/+esm" : String).length = 5 := rfl
  rw [h1, h2, h3, h4] at hl
  omega

theorem compositeError_names_both (pkg e₁ e₂ : String) :
    ContainsStr (compositeErrorMessage pkg e₁ e₂) e₁ ∧
    ContainsStr (compositeErrorMessage pkg e₁ e₂) e₂ := by
  constructor
  · refine ⟨("Failed to resolve " ++ pkg ++ " from CDN. Primary error: ").data,
      (". Fallback error: " ++ e₂).data, ?_⟩
    rw [compositeErrorMessage]
    simp only [String.data_append, List.append_assoc]
  · refine ⟨("Failed to resolve " ++ pkg ++ " from CDN. Primary error: " ++ e₁ ++
      ". Fallback error: ").data, ([] : List Char), ?_⟩
    rw [compositeErrorMessage]
    simp only [String.data_append, List.append_assoc, List.append_nil]

/-- C6 (amended): when the primary registry fetch for a package fails,
exactly one retry is made against the fallback registry with a different URL
convention (the fetch sequence is the primary URL then the fallback URL, and
the two URLs differ); if the retry succeeds its module is the result; if the
retry also fails, the resolution rejects with a composite error naming both
underlying failures — but the CodeExecutor catches that rejection per
dependency and omits the binding, so the composite error never becomes the
dependency map of the run (resolvedDepsAfterCDN drops the failed entry
unchanged). -/
theorem cdn_fetch_fallback_contract (network : String → Except String JSValue)
    (pkg e₁ : String) (h₁ : network (primaryUrl pkg) = .error e₁) :
    (fetchWithFallback network pkg).2 = [primaryUrl pkg, fallbackUrl pkg] ∧
    primaryUrl pkg ≠ fallbackUrl pkg ∧
    (∀ m, network (fallbackUrl pkg) = .ok m →
      (fetchWithFallback network pkg).1 = .ok m) ∧
    (∀ e₂, network (fallbackUrl pkg) = .error e₂ →
      (fetchWithFallback network pkg).1 =
        .error (compositeErrorMessage pkg e₁ e₂) ∧
      ContainsStr (compositeErrorMessage pkg e₁ e₂) e₁ ∧
      ContainsStr (compositeErrorMessage pkg e₁ e₂) e₂) ∧
    (∀ (deps : List (String × JSValue)) (e : String),
      (fetchWithFallback network pkg).1 = .error e →
      resolvedDepsAfterCDN deps [pkg] (fun d => fetchWithFallback network d) =
        deps) := by
  refine ⟨?_, primaryUrl_ne_fallbackUrl pkg, ?_, ?_, ?_⟩
  · unfold fetchWithFallback
    rw [h₁]
    cases network (fallbackUrl pkg) <;> rfl
  · intro m hm
    unfold fetchWithFallback
    rw [h₁, hm]
  · intro e₂ h₂
    refine ⟨?_, compositeError_names_both pkg e₁ e₂⟩
    unfold fetchWithFallback
    rw [h₁, h₂]
  · intro deps e he
    unfold resolvedDepsAfterCDN
    rw [List.filterMap]
    rw [show cdnDepOutcome (fetchWithFallback network pkg).1 = none from by
      rw [he]; rfl]
    simp [List.filterMap]

/-- Witness for C6 (amended) at a network on which every fetch fails. -/
theorem cdn_fetch_fallback_contract_witness :
    ((fun _ : String => (Except.error "NetworkError" : Except String JSValue))
      (primaryUrl "left-pad") = .error "NetworkError") ∧
    ((fetchWithFallback (fun _ => .error "NetworkError") "left-pad").2 =
        [primaryUrl "left-pad", fallbackUrl "left-pad"] ∧
      primaryUrl "left-pad" ≠ fallbackUrl "left-pad" ∧
      (∀ m, (fun _ : String => (Except.error "NetworkError" :
          Except String JSValue)) (fallbackUrl "left-pad") = .ok m →
        (fetchWithFallback (fun _ => .error "NetworkError") "left-pad").1 = .ok m) ∧
      (∀ e₂, (fun _ : String => (Except.error "NetworkError" :
          Except String JSValue)) (fallbackUrl "left-pad") = .error e₂ →
        (fetchWithFallback (fun _ => .error "NetworkError") "left-pad").1 =
          .error (compositeErrorMessage "left-pad" "NetworkError" e₂) ∧
        ContainsStr (compositeErrorMessage "left-pad" "NetworkError" e₂)
          "NetworkError" ∧
        ContainsStr (compositeErrorMessage "left-pad" "NetworkError" e₂) e₂) ∧
      (∀ (deps : List (String × JSValue)) (e : String),
        (fetchWithFallback (fun _ => .error "NetworkError") "left-pad").1 =
          .error e →
        resolvedDepsAfterCDN deps ["left-pad"]
          (fun d => fetchWithFallback (fun _ => .error "NetworkError") d) =
          deps)) :=
  ⟨rfl, cdn_fetch_fallback_contract (fun _ => .error "NetworkError") "left-pad"
    "NetworkError" rfl⟩

/-- A pipeline standing for lines 139-152 on the left-pad SourceSet with
auto-resolution enabled: the transformer succeeds (the unprovided import is
tolerated and rewritten, line 615), and the factory returns a component
without throwing (generatedFactory_entry_contract); the returned value is an
arbitrary function value. -/
def leftPadAutoPipeline : List CodeFile → List (String × JSValue) →
    Except String JSValue :=
  fun files deps =>
    (transformFilesImports importsOfLeftPad files (deps.map Prod.fst) true).map
      fun _ => JSValue.vfunc 0

/-- C6 counterexample: on the concrete run where both registries fail for
left-pad, the resolution rejects with the composite error, but the
CodeExecutor run discards it: the dependency map stays empty and the run's
ExecutionResult has error = none — the composite error is not what
ExecutionResult.error reports. -/
theorem composite_error_not_in_executionResult :
    (fetchWithFallback (fun _ => .error "NetworkError") "left-pad").1 =
      .error (compositeErrorMessage "left-pad" "NetworkError" "NetworkError") ∧
    resolvedDepsAfterCDN [] ["left-pad"]
      (fun d => fetchWithFallback (fun _ => .error "NetworkError") d) = [] ∧
    executeCode (Sum.inr leftPadFiles) [] [evalPattern] false leftPadAutoPipeline =
      { Component := some (JSValue.vfunc 0), error := none,
        forbiddenPatterns := false } ∧
    (executeCode (Sum.inr leftPadFiles) [] [evalPattern] false
        leftPadAutoPipeline).error ≠
      some (compositeErrorMessage "left-pad" "NetworkError" "NetworkError") := by
  refine ⟨rfl, rfl, ?_, ?_⟩
  · rfl
  · intro h
    have : (none : Option String) =
        some (compositeErrorMessage "left-pad" "NetworkError" "NetworkError") := h
    exact absurd this (by simp)

/-- A pipeline standing for lines 139-152 on the left-pad SourceSet with
auto-resolution disabled: the transformer throws the unresolved-dependency
error, which executeCode converts into its error result. -/
def leftPadNoAutoPipeline : List CodeFile → List (String × JSValue) →
    Except String JSValue :=
  fun files deps =>
    (transformFilesImports importsOfLeftPad files (deps.map Prod.fst) false).map
      fun _ => JSValue.vfunc 0

/-- C7 counterexample: on the scenario-D run — a terminal
unresolved-dependency failure, with onError supplied and the result applied
normally (nothing thrown by the host calls) — the failure is surfaced
through ExecutionResult.error but onError is invoked zero times, not once:
executeCode traps the throw itself, so the catch branch of the effect — the
only onError site on this path — never runs. -/
theorem onError_not_invoked_for_unresolved_dependency :
    runExecutionEffect true (Sum.inr leftPadFiles) [] [evalPattern]
        leftPadNoAutoPipeline (fun _ => .ok ()) =
      ({ Component := none, error := some (moduleNotFoundMessage "left-pad"),
         forbiddenPatterns := false }, 0) ∧
    (0 : Nat) ≠ 1 :=
  ⟨rfl, by decide⟩

/-- C7 (amended): terminal failures that executeCode converts into
ExecutionResult.error — unresolved dependency, transform and link errors —
do not invoke onError (the effect applies the converted result unchanged and
its catch is not reached); onError is invoked exactly once per failure
delivered through the error-boundary handler handleExecutionError
(mount/render failures) when it is supplied, and exactly once per Error
thrown while applying an execution result when it is supplied — not at all
for a non-Error throwable. -/
theorem onError_invocation_policy :
    (∀ (hasOnError : Bool) (code : String ⊕ List CodeFile)
        (deps : List (String × JSValue)) (patterns : List SecPattern)
        (pipeline : List CodeFile → List (String × JSValue) →
          Except String JSValue)
        (applyResult : ExecutionResult → Except JSThrown Unit),
      (applyResult (executeCode code deps patterns false pipeline) = .ok () →
        runExecutionEffect hasOnError code deps patterns pipeline applyResult =
          (executeCode code deps patterns false pipeline, 0)) ∧
      (∀ message,
        applyResult (executeCode code deps patterns false pipeline) =
            .error (.jsError message) →
        runExecutionEffect hasOnError code deps patterns pipeline applyResult =
          ({ Component := none, error := some message,
             forbiddenPatterns := false }, if hasOnError then 1 else 0)) ∧
      (∀ stringValue,
        applyResult (executeCode code deps patterns false pipeline) =
            .error (.other stringValue) →
        runExecutionEffect hasOnError code deps patterns pipeline applyResult =
          ({ Component := none, error := some stringValue,
             forbiddenPatterns := false }, 0))) ∧
    (∀ (prev : ExecutionResult) (message : String),
      (handleExecutionError true prev message).2 = 1 ∧
      (handleExecutionError false prev message).2 = 0) := by
  refine ⟨?_, fun _ _ => ⟨rfl, rfl⟩⟩
  intro hasOnError code deps patterns pipeline applyResult
  refine ⟨?_, ?_, ?_⟩
  · intro h
    unfold runExecutionEffect
    rw [h]
  · intro message h
    unfold runExecutionEffect
    rw [h]
  · intro stringValue h
    unfold runExecutionEffect
    rw [h]

/-- Witness for C7 (amended): a concrete run whose result application throws
an Error — with onError supplied, it is invoked exactly once — and a
concrete run whose application throws a non-Error value — onError is not
invoked. -/
theorem onError_invocation_policy_witness :
    ((fun _ : ExecutionResult =>
        (Except.error (JSThrown.jsError "render failed") : Except JSThrown Unit))
      (executeCode (Sum.inl "const x = 1") [] [] false
        (fun _ _ => .ok (JSValue.vfunc 0))) =
      .error (.jsError "render failed")) ∧
    runExecutionEffect true (Sum.inl "const x = 1") [] []
        (fun _ _ => .ok (JSValue.vfunc 0))
        (fun _ => .error (.jsError "render failed")) =
      ({ Component := none, error := some "render failed",
         forbiddenPatterns := false }, 1) ∧
    runExecutionEffect true (Sum.inl "const x = 1") [] []
        (fun _ _ => .ok (JSValue.vfunc 0))
        (fun _ => .error (.other "42")) =
      ({ Component := none, error := some "42",
         forbiddenPatterns := false }, 0) := by
  refine ⟨rfl, ?_, ?_⟩
  · have h := (onError_invocation_policy.1 true (Sum.inl "const x = 1") [] []
      (fun _ _ => .ok (JSValue.vfunc 0))
      (fun _ => .error (.jsError "render failed"))).2.1 "render failed" rfl
    simpa using h
  · exact (onError_invocation_policy.1 true (Sum.inl "const x = 1") [] []
      (fun _ _ => .ok (JSValue.vfunc 0))
      (fun _ => .error (.other "42"))).2.2 "42" rfl

end ReactExe
